import Mathlib

/-!
Shallow embedding of the matrix library in src/src/lib.rs.

Every Rust panic site is modelled as an `Except MatError` failure:
the three explicit panic messages of the library map to
`DimensionMismatch`, `IncompatibleDimensions` and `IndexOutOfRange`
following the taxonomy of the specification, while a built-in Rust
out-of-bounds slice index (for example `rows[0]` on an empty vector
in `Matrix::new`) is modelled as the distinct value `IndexPanic`.
-/

namespace RustLinalg

/-- Failure conditions of the library.  The first three correspond to the
explicit panic calls in lib.rs; `IndexPanic` models the built-in Rust
panic raised by an out-of-bounds `Vec` index. -/
inductive MatError where
  | DimensionMismatch
  | IncompatibleDimensions
  | IndexOutOfRange
  | IndexPanic
  deriving DecidableEq, Repr

instance [DecidableEq ε] [DecidableEq σ] : DecidableEq (Except ε σ)
  | .error e1, .error e2 =>
    if h : e1 = e2 then .isTrue (by rw [h]) else
      .isFalse (by intro hc; cases hc; exact h rfl)
  | .error _, .ok _ => .isFalse (by intro hc; cases hc)
  | .ok _, .error _ => .isFalse (by intro hc; cases hc)
  | .ok a1, .ok a2 =>
    if h : a1 = a2 then .isTrue (by rw [h]) else
      .isFalse (by intro hc; cases hc; exact h rfl)

/-- The `Matrix<T>` struct of lib.rs: recorded row count, recorded column
count, and the row-major data. -/
structure Matrix (α : Type) where
  rows : Nat
  cols : Nat
  data : List (List α)
  deriving DecidableEq, Repr

/-- Structural validity, as in section 3 of the specification: `data` has
exactly `rows` entries and every entry has exactly `cols` elements. -/
def Matrix.valid (m : Matrix α) : Prop :=
  m.data.length = m.rows ∧ ∀ r ∈ m.data, r.length = m.cols

instance (m : Matrix α) : Decidable m.valid :=
  inferInstanceAs (Decidable (m.data.length = m.rows ∧ ∀ r ∈ m.data, r.length = m.cols))

/-- `Matrix::new` (lib.rs lines 17-27).  The uniformity check
`rows.iter().any(|r| r.len() != rows[0].len())` is vacuously false on an
empty input, after which the field initialiser `cols: rows[0].len()`
indexes the nonexistent first row and panics; on a nonempty input the
check fires exactly when some row differs in length from row 0. -/
def Matrix.new (l : List (List α)) : Except MatError (Matrix α) :=
  match l with
  | [] => .error .IndexPanic
  | r0 :: _ =>
    if l.any (fun r => r.length != r0.length) then .error .DimensionMismatch
    else .ok ⟨l.length, r0.length, l⟩

/-- `Matrix::check_valid_dims` (lib.rs lines 41-48).  The first disjunct
reads `self.data[0]` inside the closure, which is never evaluated when
`data` is empty. -/
def Matrix.check_valid_dims (m : Matrix α) : Except MatError Unit :=
  if (match m.data with
      | [] => false
      | r0 :: _ => m.data.any (fun r => r.length != r0.length))
     || (m.data.length != m.rows)
     || m.data.any (fun r => r.length != m.cols)
  then .error .DimensionMismatch
  else .ok ()

/-- `Matrix::check_same_dims` (lib.rs lines 30-38): validate self, then
rhs, then compare the recorded shapes. -/
def Matrix.check_same_dims (a b : Matrix α) : Except MatError Unit :=
  match a.check_valid_dims with
  | .error e => .error e
  | .ok _ =>
    match b.check_valid_dims with
    | .error e => .error e
    | .ok _ =>
      if a.rows != b.rows || a.cols != b.cols then .error .DimensionMismatch
      else .ok ()

/-- `Matrix::zeros` (lib.rs lines 50-52): `new(vec![vec![0; p]; n])`. -/
def Matrix.zeros (α : Type) [Zero α] (n p : Nat) : Except MatError (Matrix α) :=
  Matrix.new (List.replicate n (List.replicate p (0 : α)))

/-- `Matrix::ones` (lib.rs lines 54-56): `new(vec![vec![1; p]; n])`. -/
def Matrix.ones (α : Type) [One α] (n p : Nat) : Except MatError (Matrix α) :=
  Matrix.new (List.replicate n (List.replicate p (1 : α)))

/-- `Matrix::row` (lib.rs lines 58-64): explicit bound check against the
recorded `rows`, then the built-in index `self.data[i]`. -/
def Matrix.row (m : Matrix α) (i : Nat) : Except MatError (List α) :=
  if i ≥ m.rows then .error .IndexOutOfRange
  else
    match m.data.get? i with
    | none => .error .IndexPanic
    | some r => .ok r

/-- Helper for `Matrix::col`: gather element `i` of each row in order,
panicking on the first row shorter than `i + 1` (the Rust
`map(|r| r[i].clone()).collect()`). -/
def colGather (i : Nat) : List (List α) → Except MatError (List α)
  | [] => .ok []
  | r :: rest =>
    match r.get? i with
    | none => .error .IndexPanic
    | some v =>
      match colGather i rest with
      | .error e => .error e
      | .ok t => .ok (v :: t)

/-- `Matrix::col` (lib.rs lines 66-72): explicit bound check against the
recorded `cols`, then gather position `i` of every row. -/
def Matrix.col (m : Matrix α) (i : Nat) : Except MatError (List α) :=
  if i ≥ m.cols then .error .IndexOutOfRange
  else colGather i m.data

/-- The inner product used by `dot`:
`row.iter().zip(col).map(|(a, b)| a * b).sum()` — zip truncates to the
shorter operand and `sum` folds from the left starting at zero. -/
def sumProd [Mul α] [Add α] [Zero α] (r c : List α) : α :=
  ((r.zip c).map (fun p => p.1 * p.2)).foldl (fun acc v => acc + v) 0

/-- The Rust statement `d[n][p] = v`: panics when either index is out of
bounds, otherwise updates the cell. -/
def setCell (d : List (List α)) (n p : Nat) (v : α) : Except MatError (List (List α)) :=
  match d.get? n with
  | none => .error .IndexPanic
  | some r =>
    if p < r.length then .ok (d.set n (r.set p v))
    else .error .IndexPanic

/-- The index pairs visited by the nested loops of `dot`, in row-major
order: `for n in 0..m { for p in 0..q { ... } }`. -/
def rowMajor (m q : Nat) : List (Nat × Nat) :=
  (List.range m).flatMap (fun n => (List.range q).map (fun p => (n, p)))

/-- The loop body of `dot`, iterated over the given index pairs: for each
pair `(n, p)` read `self.row(n)` and `rhs.col(p)` and overwrite cell
`(n, p)` with their inner product. -/
def fillCells [Mul α] [Add α] [Zero α] (a b : Matrix α) :
    List (Nat × Nat) → List (List α) → Except MatError (List (List α))
  | [], d => .ok d
  | np :: rest, d =>
    match a.row np.1 with
    | .error e => .error e
    | .ok r =>
      match b.col np.2 with
      | .error e => .error e
      | .ok c =>
        match setCell d np.1 np.2 (sumProd r c) with
        | .error e => .error e
        | .ok d2 => fillCells a b rest d2

/-- `Matrix::dot` (lib.rs lines 74-92): inner-dimension check, then seed
the result as `ones(self.rows, rhs.cols)`, then overwrite every cell in
row-major order. -/
def Matrix.dot [Mul α] [Add α] [Zero α] [One α] (a b : Matrix α) :
    Except MatError (Matrix α) :=
  if a.cols != b.rows then .error .IncompatibleDimensions
  else
    match Matrix.ones α a.rows b.cols with
    | .error e => .error e
    | .ok res =>
      match fillCells a b (rowMajor a.rows b.cols) res.data with
      | .error e => .error e
      | .ok d => .ok { res with data := d }

/-- `Matrix::dot_scalar` (lib.rs lines 94-99): clone and multiply every
element on the left by the scalar; no checks, no failure. -/
def Matrix.dot_scalar [Mul α] (m : Matrix α) (a : α) : Matrix α :=
  { m with data := m.data.map (fun r => r.map (fun v => a * v)) }

/-- Helper for `transpose`: push `self.col(i)` for each `i` of the given
index list, in order. -/
def colsFrom (m : Matrix α) : List Nat → Except MatError (List (List α))
  | [] => .ok []
  | i :: rest =>
    match m.col i with
    | .error e => .error e
    | .ok c =>
      match colsFrom m rest with
      | .error e => .error e
      | .ok t => .ok (c :: t)

/-- `Matrix::transpose` (lib.rs lines 101-111): validate self, collect the
columns for `i in 0..cols`, and hand the collected rows to `new`. -/
def Matrix.transpose (m : Matrix α) : Except MatError (Matrix α) :=
  match m.check_valid_dims with
  | .error e => .error e
  | .ok _ =>
    match colsFrom m (List.range m.cols) with
    | .error e => .error e
    | .ok d => Matrix.new d

/-- `<Matrix as Add>::add` (lib.rs lines 127-137): `check_same_dims`, then
`new` of the elementwise sums (both zips truncate to the shorter list). -/
def Matrix.add [Add α] (a b : Matrix α) : Except MatError (Matrix α) :=
  match a.check_same_dims b with
  | .error e => .error e
  | .ok _ =>
    Matrix.new ((a.data.zip b.data).map (fun rr => (rr.1.zip rr.2).map (fun xy => xy.1 + xy.2)))

/-- `<Matrix as Sub>::sub` (lib.rs lines 153-163): `check_same_dims`, then
`new` of the elementwise differences. -/
def Matrix.sub [Sub α] (a b : Matrix α) : Except MatError (Matrix α) :=
  match a.check_same_dims b with
  | .error e => .error e
  | .ok _ =>
    Matrix.new ((a.data.zip b.data).map (fun rr => (rr.1.zip rr.2).map (fun xy => xy.1 - xy.2)))

/-- A fallible operation never hands back a structurally invalid matrix
when this predicate holds: either it failed, or the matrix it returned is
valid. -/
def validE : Except MatError (Matrix α) → Prop
  | .ok m => m.valid
  | .error _ => True

instance (e : Except MatError (Matrix α)) : Decidable (validE e) :=
  match e with
  | .ok m => inferInstanceAs (Decidable m.valid)
  | .error _ => .isTrue trivial

/-- Reading a cell of row-major data, with defaults out of range; used only
to state theorems. -/
def getCell [Zero α] (d : List (List α)) (n p : Nat) : α :=
  (d.getD n []).getD p 0

/-! ### Lemmas about the validity checks -/

theorem check_valid_dims_ok (m : Matrix α) (h : m.valid) :
    m.check_valid_dims = .ok () := by
  obtain ⟨h1, h2⟩ := h
  unfold Matrix.check_valid_dims
  have hmatch : (match m.data with
      | [] => false
      | r0 :: _ => m.data.any (fun r => r.length != r0.length)) = false := by
    cases hd : m.data with
    | nil => rfl
    | cons r0 rest =>
      rw [List.any_eq_false]
      intro r hr
      have hr0 : r0 ∈ m.data := by rw [hd]; exact List.mem_cons_self _ _
      simp [h2 r (hd ▸ hr), h2 r0 hr0]
  have h3 : m.data.any (fun r => r.length != m.cols) = false := by
    rw [List.any_eq_false]; intro r hr; simp [h2 r hr]
  rw [hmatch]
  simp [h1, h3]

theorem check_valid_dims_err (m : Matrix α) (h : ¬ m.valid) :
    m.check_valid_dims = .error .DimensionMismatch := by
  unfold Matrix.check_valid_dims
  unfold Matrix.valid at h
  push_neg at h
  by_cases h1 : m.data.length = m.rows
  · obtain ⟨r, hr, hrc⟩ := h h1
    have h3 : m.data.any (fun r => r.length != m.cols) = true := by
      rw [List.any_eq_true]; exact ⟨r, hr, by simp [hrc]⟩
    simp [h3]
  · have h2 : (m.data.length != m.rows) = true := by simp [h1]
    simp [h2]

theorem check_same_dims_ok (a b : Matrix α) (ha : a.valid) (hb : b.valid)
    (hr : a.rows = b.rows) (hc : a.cols = b.cols) :
    a.check_same_dims b = .ok () := by
  unfold Matrix.check_same_dims
  rw [check_valid_dims_ok a ha, check_valid_dims_ok b hb]
  simp [hr, hc]

theorem check_same_dims_err (a b : Matrix α)
    (h : ¬ (a.valid ∧ b.valid ∧ a.rows = b.rows ∧ a.cols = b.cols)) :
    a.check_same_dims b = .error .DimensionMismatch := by
  unfold Matrix.check_same_dims
  by_cases ha : a.valid
  · rw [check_valid_dims_ok a ha]
    by_cases hb : b.valid
    · rw [check_valid_dims_ok b hb]
      by_cases hrr : a.rows = b.rows
      · have hcc : a.cols ≠ b.cols := by tauto
        simp [hcc]
      · simp [hrr]
    · rw [check_valid_dims_err b hb]
  · rw [check_valid_dims_err a ha]

/-! ### Lemmas about `new` -/

theorem new_nil : Matrix.new ([] : List (List α)) = .error .IndexPanic := rfl

theorem new_ok_of_uniform (r0 : List α) (rest : List (List α))
    (h : ∀ r ∈ r0 :: rest, r.length = r0.length) :
    Matrix.new (r0 :: rest) = .ok ⟨(r0 :: rest).length, r0.length, r0 :: rest⟩ := by
  unfold Matrix.new
  have hu : (r0 :: rest).any (fun r => r.length != r0.length) = false := by
    rw [List.any_eq_false]; intro r hr; simp [h r hr]
  simp [hu]

theorem new_ok_valid (l : List (List α)) (M : Matrix α) (h : Matrix.new l = .ok M) :
    M.valid ∧ M.data = l ∧ M.rows = l.length := by
  cases l with
  | nil => exact absurd h (by simp [new_nil])
  | cons r0 rest =>
    rw [show Matrix.new (r0 :: rest) =
        (if (r0 :: rest).any (fun r => r.length != r0.length)
          then .error .DimensionMismatch
          else .ok ⟨(r0 :: rest).length, r0.length, r0 :: rest⟩) from rfl] at h
    by_cases hu : (r0 :: rest).any (fun r => r.length != r0.length) = true
    · rw [if_pos hu] at h
      exact absurd h (by simp)
    · rw [if_neg hu] at h
      have hM : M = ⟨(r0 :: rest).length, r0.length, r0 :: rest⟩ := by
        cases h; rfl
      subst hM
      refine ⟨⟨rfl, ?_⟩, rfl, rfl⟩
      intro r hr
      have := List.any_eq_false.mp (Bool.of_not_eq_true hu) r hr
      simpa using this

theorem validE_new (l : List (List α)) : validE (Matrix.new l) := by
  cases he : Matrix.new l with
  | error e => trivial
  | ok M => exact (new_ok_valid l M he).1

/-! ### Lemmas about `row` and `col` -/

theorem row_ok (m : Matrix α) (i : Nat) (h : m.valid) (hi : i < m.rows) :
    m.row i = .ok (m.data.getD i []) := by
  unfold Matrix.row
  rw [if_neg (by omega)]
  have hlen : i < m.data.length := by rw [h.1]; exact hi
  rw [List.get?_eq_getElem?, List.getElem?_eq_getElem hlen,
    List.getD_eq_getElem _ _ hlen]

theorem row_err_iff (m : Matrix α) (i : Nat) (h : m.valid) :
    m.row i = .error .IndexOutOfRange ↔ m.rows ≤ i := by
  constructor
  · intro he
    by_contra hlt
    rw [row_ok m i h (by omega)] at he
    exact absurd he (by simp)
  · intro hle
    unfold Matrix.row
    rw [if_pos hle]

theorem colGather_ok [Zero α] (j : Nat) (d : List (List α))
    (h : ∀ r ∈ d, j < r.length) :
    colGather j d = .ok (d.map (fun r => r.getD j 0)) := by
  induction d with
  | nil => rfl
  | cons r rest ih =>
    unfold colGather
    have hj : j < r.length := h r (List.mem_cons_self _ _)
    rw [List.get?_eq_getElem?, List.getElem?_eq_getElem hj,
      ih (fun r hr => h r (List.mem_cons_of_mem _ hr))]
    simp [List.getD_eq_getElem?_getD, List.getElem?_eq_getElem hj]

theorem col_ok [Zero α] (m : Matrix α) (j : Nat) (h : m.valid) (hj : j < m.cols) :
    m.col j = .ok (m.data.map (fun r => r.getD j 0)) := by
  unfold Matrix.col
  rw [if_neg (by omega)]
  exact colGather_ok j m.data (fun r hr => by rw [h.2 r hr]; exact hj)

theorem col_err_iff [Zero α] (m : Matrix α) (j : Nat) (h : m.valid) :
    m.col j = .error .IndexOutOfRange ↔ m.cols ≤ j := by
  constructor
  · intro he
    by_contra hlt
    rw [col_ok m j h (by omega)] at he
    exact absurd he (by simp)
  · intro hle
    unfold Matrix.col
    rw [if_pos hle]

/-! ### Lemmas about `setCell`, `getCell` and `fillCells` -/

theorem setCell_ok (d : List (List α)) (n p : Nat) (v : α)
    (hn : n < d.length) (hp : p < (d.getD n []).length) :
    setCell d n p v = .ok (d.set n ((d.getD n []).set p v)) := by
  unfold setCell
  rw [List.get?_eq_getElem?, List.getElem?_eq_getElem hn]
  dsimp only
  rw [List.getD_eq_getElem _ _ hn] at hp ⊢
  rw [if_pos hp]

theorem getCell_set [Zero α] (d : List (List α)) (n p : Nat) (v : α)
    (hn : n < d.length) (hp : p < (d.getD n []).length) (i j : Nat) :
    getCell (d.set n ((d.getD n []).set p v)) i j =
      if i = n ∧ j = p then v else getCell d i j := by
  unfold getCell
  by_cases hin : i = n
  · subst hin
    have h1 : (d.set i ((d.getD i []).set p v)).getD i [] = (d.getD i []).set p v := by
      rw [List.getD_eq_getElem?_getD, List.getElem?_set, if_pos rfl, if_pos hn]
      rfl
    rw [h1]
    by_cases hjp : j = p
    · subst hjp
      rw [if_pos ⟨rfl, rfl⟩, List.getD_eq_getElem?_getD, List.getElem?_set, if_pos rfl,
        if_pos hp]
      rfl
    · rw [if_neg (by tauto), List.getD_eq_getElem?_getD, List.getElem?_set_ne (by omega),
        ← List.getD_eq_getElem?_getD]
  · have h1 : (d.set n ((d.getD n []).set p v)).getD i [] = d.getD i [] := by
      rw [List.getD_eq_getElem?_getD, List.getElem?_set_ne (by omega),
        ← List.getD_eq_getElem?_getD]
    rw [h1, if_neg (by tauto)]

theorem fillCells_ok [Mul α] [Add α] [Zero α] (a b : Matrix α)
    (hA : a.valid) (hB : b.valid) :
    ∀ (pairs : List (Nat × Nat)) (d : List (List α)),
      (∀ np ∈ pairs, np.1 < a.rows ∧ np.2 < b.cols) →
      d.length = a.rows → (∀ r ∈ d, r.length = b.cols) →
      ∃ d2, fillCells a b pairs d = .ok d2 ∧ d2.length = a.rows ∧
        (∀ r ∈ d2, r.length = b.cols) ∧
        ∀ i j, getCell d2 i j =
          if (i, j) ∈ pairs
          then sumProd (a.data.getD i []) (b.data.map (fun r => r.getD j 0))
          else getCell d i j := by
  intro pairs
  induction pairs with
  | nil =>
    intro d _ hl hq
    exact ⟨d, rfl, hl, hq, fun i j => by simp⟩
  | cons np rest ih =>
    obtain ⟨n, p⟩ := np
    intro d hbnd hl hq
    obtain ⟨hn, hp⟩ := hbnd (n, p) (List.mem_cons_self _ _)
    have hrow := row_ok a n hA hn
    have hcol := col_ok b p hB hp
    have hnd : n < d.length := by rw [hl]; exact hn
    have hrowlen : (d.getD n []).length = b.cols := by
      have hmem : d.getD n [] ∈ d := by
        rw [List.getD_eq_getElem _ _ hnd]; exact List.getElem_mem hnd
      exact hq _ hmem
    have hpd : p < (d.getD n []).length := by rw [hrowlen]; exact hp
    have hset := setCell_ok d n p
      (sumProd (a.data.getD n []) (b.data.map (fun r => r.getD p 0))) hnd hpd
    have hlen3 : (d.set n ((d.getD n []).set p
        (sumProd (a.data.getD n []) (b.data.map (fun r => r.getD p 0))))).length = a.rows := by
      rw [List.length_set]; exact hl
    have hq3 : ∀ r ∈ d.set n ((d.getD n []).set p
        (sumProd (a.data.getD n []) (b.data.map (fun r => r.getD p 0)))),
        r.length = b.cols := by
      intro r hr
      rcases List.mem_or_eq_of_mem_set hr with h2 | h2
      · exact hq _ h2
      · rw [h2, List.length_set]; exact hrowlen
    obtain ⟨d2, hfill, hlen2, hq2, hcells⟩ := ih _
      (fun x hx => hbnd x (List.mem_cons_of_mem _ hx)) hlen3 hq3
    refine ⟨d2, ?_, hlen2, hq2, ?_⟩
    · unfold fillCells
      dsimp only
      rw [hrow]
      dsimp only
      rw [hcol]
      dsimp only
      rw [hset]
      dsimp only
      exact hfill
    · intro i j
      rw [hcells i j,
        getCell_set d n p _ hnd hpd i j]
      by_cases hrest : (i, j) ∈ rest
      · rw [if_pos hrest, if_pos (List.mem_cons_of_mem _ hrest)]
      · rw [if_neg hrest]
        by_cases hij : i = n ∧ j = p
        · obtain ⟨rfl, rfl⟩ := hij
          rw [if_pos ⟨rfl, rfl⟩, if_pos (List.mem_cons_self _ _)]
        · rw [if_neg hij, if_neg (by
            intro hmem
            rcases List.mem_cons.mp hmem with h2 | h2
            · exact hij ⟨congrArg Prod.fst h2, congrArg Prod.snd h2⟩
            · exact hrest h2)]

theorem mem_rowMajor (m q i j : Nat) : (i, j) ∈ rowMajor m q ↔ i < m ∧ j < q := by
  unfold rowMajor
  simp only [List.mem_flatMap, List.mem_map, List.mem_range, Prod.mk.injEq]
  constructor
  · rintro ⟨n, hn, p, hpq, rfl, rfl⟩
    exact ⟨hn, hpq⟩
  · rintro ⟨hi, hj⟩
    exact ⟨i, hi, j, hj, rfl, rfl⟩

/-! ### Lemmas about `zeros` and `ones` -/

theorem ones_eq (α : Type) [One α] (n p : Nat) (h : 1 ≤ n) :
    Matrix.ones α n p = .ok ⟨n, p, List.replicate n (List.replicate p (1 : α))⟩ := by
  obtain ⟨k, rfl⟩ : ∃ k, n = k + 1 := ⟨n - 1, by omega⟩
  unfold Matrix.ones
  rw [List.replicate_succ,
    new_ok_of_uniform _ _ (fun r hr => by
      rcases List.mem_cons.mp hr with h2 | h2
      · rw [h2]
      · rw [List.eq_of_mem_replicate h2])]
  simp

theorem zeros_eq (α : Type) [Zero α] (n p : Nat) (h : 1 ≤ n) :
    Matrix.zeros α n p = .ok ⟨n, p, List.replicate n (List.replicate p (0 : α))⟩ := by
  obtain ⟨k, rfl⟩ : ∃ k, n = k + 1 := ⟨n - 1, by omega⟩
  unfold Matrix.zeros
  rw [List.replicate_succ,
    new_ok_of_uniform _ _ (fun r hr => by
      rcases List.mem_cons.mp hr with h2 | h2
      · rw [h2]
      · rw [List.eq_of_mem_replicate h2])]
  simp

theorem ones_zero_rows (α : Type) [One α] (p : Nat) :
    Matrix.ones α 0 p = .error .IndexPanic := rfl

theorem zeros_zero_rows (α : Type) [Zero α] (p : Nat) :
    Matrix.zeros α 0 p = .error .IndexPanic := rfl

/-! ### The computed form of `dot` on valid compatible inputs with at
least one row -/

theorem dot_eq [Mul α] [Add α] [Zero α] [One α] (a b : Matrix α)
    (hA : a.valid) (hB : b.valid) (hk : a.cols = b.rows) (hm : 1 ≤ a.rows) :
    a.dot b = .ok ⟨a.rows, b.cols,
      (List.range a.rows).map (fun n => (List.range b.cols).map (fun p =>
        sumProd (a.data.getD n []) (b.data.map (fun r => r.getD p 0))))⟩ := by
  unfold Matrix.dot
  rw [if_neg (by simp [hk]), ones_eq α a.rows b.cols hm]
  obtain ⟨d2, hfill, hlen, hq, hcells⟩ := fillCells_ok a b hA hB
    (rowMajor a.rows b.cols) (List.replicate a.rows (List.replicate b.cols 1))
    (fun np hnp => by
      obtain ⟨i, j⟩ := np
      exact (mem_rowMajor a.rows b.cols i j).mp hnp)
    (List.length_replicate _ _)
    (fun r hr => by rw [List.eq_of_mem_replicate hr]; exact List.length_replicate _ _)
  dsimp only
  rw [hfill]
  dsimp only
  have hdata : d2 = (List.range a.rows).map (fun n => (List.range b.cols).map (fun p =>
      sumProd (a.data.getD n []) (b.data.map (fun r => r.getD p 0)))) := by
    apply List.ext_getElem
    · rw [hlen]; simp
    · intro n h1 h2
      rw [List.getElem_map]
      have hnm : n < a.rows := by rw [← hlen]; exact h1
      apply List.ext_getElem
      · rw [hq _ (List.getElem_mem h1)]; simp [List.getElem_range]
      · intro p h3 h4
        have hpq : p < b.cols := by
          have := hq _ (List.getElem_mem h1); omega
        have hcell := hcells n p
        rw [if_pos ((mem_rowMajor a.rows b.cols n p).mpr ⟨hnm, hpq⟩)] at hcell
        unfold getCell at hcell
        rw [List.getD_eq_getElem _ _ h1] at hcell
        rw [List.getD_eq_getElem _ _ h3] at hcell
        rw [hcell, List.getElem_map]
        simp [List.getElem_range]
  rw [hdata]

/-- `new` on any nonempty input whose rows all have length `c` succeeds and
records the derived shape. -/
theorem new_eq_ok (l : List (List α)) (c : Nat) (hne : l ≠ [])
    (h : ∀ r ∈ l, r.length = c) :
    Matrix.new l = .ok ⟨l.length, c, l⟩ := by
  cases l with
  | nil => exact absurd rfl hne
  | cons r0 rest =>
    have hc : r0.length = c := h r0 (List.mem_cons_self _ _)
    rw [new_ok_of_uniform r0 rest (fun r hr => by rw [h r hr, hc]), hc]

/-! ### The specification formula for a product entry, and its agreement
with the computed inner product -/

/-- Entry `(n, p)` of a matrix product as the specification words it: the
sum over `j` of `A[n][j] * B[j][p]`, accumulated in order of increasing
`j`. -/
def specDotEntry (a b : Matrix Int) (n p : Nat) : Int :=
  (List.range a.cols).foldl
    (fun acc j => acc + getCell a.data n j * getCell b.data j p) 0

theorem foldl_add_map (g : β → Int) :
    ∀ (l : List β) (a : Int), l.foldl (fun acc x => acc + g x) a = a + (l.map g).sum := by
  intro l
  induction l with
  | nil => intro a; simp
  | cons x xs ih => intro a; simp [ih, add_assoc]

theorem foldl_add (l : List Int) (a : Int) :
    l.foldl (fun acc v => acc + v) a = a + l.sum := by
  induction l generalizing a with
  | nil => simp
  | cons x xs ih => simp [ih, add_assoc]

theorem sumProd_eq_specDotEntry (a b : Matrix Int) (n p : Nat)
    (hA : a.valid) (hB : b.valid) (hk : a.cols = b.rows) (hn : n < a.rows) :
    sumProd (a.data.getD n []) (b.data.map (fun r => r.getD p 0)) =
      specDotEntry a b n p := by
  have hnd : n < a.data.length := by rw [hA.1]; exact hn
  have hrowlen : (a.data.getD n []).length = a.cols := by
    rw [List.getD_eq_getElem _ _ hnd]
    exact hA.2 _ (List.getElem_mem hnd)
  have hcolvlen : (b.data.map (fun r => r.getD p 0)).length = a.cols := by
    rw [List.length_map, hB.1, ← hk]
  unfold sumProd specDotEntry
  rw [foldl_add, foldl_add_map (fun j => getCell a.data n j * getCell b.data j p)
    (List.range a.cols) 0, zero_add, zero_add]
  congr 1
  apply List.ext_getElem
  · rw [List.length_map, List.length_zip, hrowlen, hcolvlen]; simp
  · intro j h1 h2
    rw [List.getElem_map, List.getElem_zip, List.getElem_map, List.getElem_map,
      List.getElem_range]
    have hj : j < a.cols := by
      rw [List.length_map, List.length_range] at h2; exact h2
    unfold getCell
    dsimp only
    congr 1
    · exact (List.getD_eq_getElem _ 0 (by rw [hrowlen]; exact hj)).symm
    · have hjb : j < b.data.length := by rw [hB.1, ← hk]; exact hj
      exact congrArg (fun l => l.getD p 0) (List.getD_eq_getElem _ [] hjb).symm

/-! ### `dot` on a zero-row receiver -/

theorem dot_zero_rows [Mul α] [Add α] [Zero α] [One α] (a b : Matrix α)
    (hk : a.cols = b.rows) (hm : a.rows = 0) :
    a.dot b = .error .IndexPanic := by
  unfold Matrix.dot
  rw [if_neg (by simp [hk]), hm, ones_zero_rows]

/-! ### Elementwise combination data used by `add` and `sub` -/

theorem combData_length (g : α × α → α) (A B : Matrix α)
    (hA : A.valid) (hB : B.valid) (hr : A.rows = B.rows) :
    ((A.data.zip B.data).map (fun rr => (rr.1.zip rr.2).map g)).length = A.rows := by
  rw [List.length_map, List.length_zip, hA.1, hB.1, ← hr, min_self]

theorem combData_rows (g : α × α → α) (A B : Matrix α)
    (hA : A.valid) (hB : B.valid) (hc : A.cols = B.cols) :
    ∀ r ∈ (A.data.zip B.data).map (fun rr => (rr.1.zip rr.2).map g),
      r.length = A.cols := by
  intro r hr
  obtain ⟨rr, hrr, rfl⟩ := List.mem_map.mp hr
  obtain ⟨h1, h2⟩ := List.of_mem_zip hrr
  rw [List.length_map, List.length_zip, hA.2 _ h1, hB.2 _ h2, ← hc, min_self]

theorem add_eq (A B : Matrix Int) (hA : A.valid) (hB : B.valid)
    (hr : A.rows = B.rows) (hc : A.cols = B.cols) (hm : 1 ≤ A.rows) :
    A.add B = .ok ⟨A.rows, A.cols,
      (A.data.zip B.data).map (fun rr => (rr.1.zip rr.2).map (fun xy => xy.1 + xy.2))⟩ := by
  unfold Matrix.add
  rw [check_same_dims_ok A B hA hB hr hc]
  dsimp only
  have hne : (A.data.zip B.data).map
      (fun rr => (rr.1.zip rr.2).map (fun xy : Int × Int => xy.1 + xy.2)) ≠ [] := by
    intro hnil
    have hl := congrArg List.length hnil
    rw [combData_length _ A B hA hB hr] at hl
    simp only [List.length_nil] at hl
    omega
  rw [new_eq_ok _ A.cols hne (combData_rows _ A B hA hB hc),
    combData_length _ A B hA hB hr]

theorem sub_eq (A B : Matrix Int) (hA : A.valid) (hB : B.valid)
    (hr : A.rows = B.rows) (hc : A.cols = B.cols) (hm : 1 ≤ A.rows) :
    A.sub B = .ok ⟨A.rows, A.cols,
      (A.data.zip B.data).map (fun rr => (rr.1.zip rr.2).map (fun xy => xy.1 - xy.2))⟩ := by
  unfold Matrix.sub
  rw [check_same_dims_ok A B hA hB hr hc]
  dsimp only
  have hne : (A.data.zip B.data).map
      (fun rr => (rr.1.zip rr.2).map (fun xy : Int × Int => xy.1 - xy.2)) ≠ [] := by
    intro hnil
    have hl := congrArg List.length hnil
    rw [combData_length _ A B hA hB hr] at hl
    simp only [List.length_nil] at hl
    omega
  rw [new_eq_ok _ A.cols hne (combData_rows _ A B hA hB hc),
    combData_length _ A B hA hB hr]

theorem zip_add_sub : ∀ (xs ys : List Int), xs.length = ys.length →
    (((xs.zip ys).map (fun q => q.1 + q.2)).zip ys).map (fun q => q.1 - q.2) = xs := by
  intro xs
  induction xs with
  | nil => intro ys _; simp
  | cons x xs ih =>
    intro ys h
    cases ys with
    | nil => simp at h
    | cons y ys =>
      simp only [List.zip_cons_cons, List.map_cons]
      rw [ih ys (by simpa using h)]
      simp

theorem zipdata_add_sub (da db : List (List Int))
    (h : List.Forall₂ (fun ra rb => ra.length = rb.length) da db) :
    (((da.zip db).map (fun rr => (rr.1.zip rr.2).map (fun xy => xy.1 + xy.2))).zip db).map
      (fun rr => (rr.1.zip rr.2).map (fun xy => xy.1 - xy.2)) = da := by
  induction h with
  | nil => rfl
  | cons hlen htail ih =>
    simp only [List.zip_cons_cons, List.map_cons]
    rw [ih, zip_add_sub _ _ hlen]

/-! ### `dot_scalar` structure -/

theorem dot_scalar_valid [Mul α] (A : Matrix α) (k : α) (hA : A.valid) :
    (A.dot_scalar k).valid := by
  constructor
  · rw [show (A.dot_scalar k).data = A.data.map (fun r => r.map (fun v => k * v)) from rfl,
      List.length_map]
    exact hA.1
  · intro r hr
    obtain ⟨r0, hr0, rfl⟩ := List.mem_map.mp hr
    rw [List.length_map]
    exact hA.2 _ hr0

/-! ### `transpose` machinery -/

theorem colsFrom_ok [Zero α] (m : Matrix α) (hv : m.valid) :
    ∀ (idxs : List Nat), (∀ i ∈ idxs, i < m.cols) →
      colsFrom m idxs = .ok (idxs.map (fun i => m.data.map (fun r => r.getD i 0))) := by
  intro idxs
  induction idxs with
  | nil => intro _; rfl
  | cons i rest ih =>
    intro h
    unfold colsFrom
    rw [col_ok m i hv (h i (List.mem_cons_self _ _))]
    dsimp only
    rw [ih (fun x hx => h x (List.mem_cons_of_mem _ hx))]
    dsimp only [List.map_cons]

theorem transpose_eq [Zero α] (m : Matrix α) (hv : m.valid) (hc : 1 ≤ m.cols) :
    m.transpose = .ok ⟨m.cols, m.rows,
      (List.range m.cols).map (fun i => m.data.map (fun r => r.getD i 0))⟩ := by
  unfold Matrix.transpose
  rw [check_valid_dims_ok m hv]
  dsimp only
  rw [colsFrom_ok m hv (List.range m.cols) (fun i hi => List.mem_range.mp hi)]
  dsimp only
  have hne : (List.range m.cols).map (fun i => m.data.map (fun r => r.getD i 0)) ≠ [] := by
    intro hnil
    have hl := congrArg List.length hnil
    rw [List.length_map, List.length_range] at hl
    simp only [List.length_nil] at hl
    omega
  rw [new_eq_ok _ m.rows hne (fun r hr => by
    obtain ⟨i, _, rfl⟩ := List.mem_map.mp hr
    rw [List.length_map, hv.1]),
    List.length_map, List.length_range]

/-! ## Claim theorems -/

/-- C1 (counterexample): the claim quantifies over every pair of valid
matrices with matching inner dimensions, but for a zero-row receiver the
all-ones seeding inside `dot` calls `new` on an empty vector, which panics
reading `rows[0]`; no product matrix is returned at all. -/
theorem C1_cex :
    (Matrix.mk 0 2 [] : Matrix Int).valid ∧
    (Matrix.mk 2 3 [[1, 1, 1], [1, 1, 1]] : Matrix Int).valid ∧
    (Matrix.mk 0 2 ([] : List (List Int))).dot ⟨2, 3, [[1, 1, 1], [1, 1, 1]]⟩ =
      .error .IndexPanic := by decide

/-- C1 (amended): for valid matrices `A` (`m` rows, `k` columns, `m ≥ 1`)
and `B` (`k` rows, `p` columns), `A.dot B` returns the `m` by `p` matrix
whose entry `(n, p)` is the sum over `j` of `A[n][j] * B[j][p]` in order
of increasing `j`; every cell of the all-ones seed is overwritten by that
formula.  When `m = 0` the operation instead fails while seeding. -/
theorem C1_product (A B : Matrix Int) (hA : A.valid) (hB : B.valid)
    (hk : A.cols = B.rows) (hm : 1 ≤ A.rows) :
    A.dot B = .ok ⟨A.rows, B.cols, (List.range A.rows).map (fun n =>
      (List.range B.cols).map (fun p => specDotEntry A B n p))⟩ := by
  rw [dot_eq A B hA hB hk hm]
  have hmap : (List.range A.rows).map (fun n => (List.range B.cols).map (fun p =>
        sumProd (A.data.getD n []) (B.data.map (fun r => r.getD p 0)))) =
      (List.range A.rows).map (fun n => (List.range B.cols).map (fun p =>
        specDotEntry A B n p)) := by
    apply List.map_congr_left
    intro n hn
    apply List.map_congr_left
    intro p _
    exact sumProd_eq_specDotEntry A B n p hA hB hk (List.mem_range.mp hn)
  rw [hmap]

/-- C1 witness: the amended theorem at the 2 by 3 and 3 by 4 matrices used
by the demonstration program. -/
theorem C1_product_witness :
    (Matrix.mk 2 3 [[1, 2, 1], [4, 1, 3]] : Matrix Int).dot
        ⟨3, 4, [[1, 1, 1, 1], [1, 1, 1, 1], [1, 1, 1, 1]]⟩ =
      .ok ⟨2, 4, (List.range 2).map (fun n => (List.range 4).map (fun p =>
        specDotEntry ⟨2, 3, [[1, 2, 1], [4, 1, 3]]⟩
          ⟨3, 4, [[1, 1, 1, 1], [1, 1, 1, 1], [1, 1, 1, 1]]⟩ n p))⟩ :=
  C1_product ⟨2, 3, [[1, 2, 1], [4, 1, 3]]⟩
    ⟨3, 4, [[1, 1, 1, 1], [1, 1, 1, 1], [1, 1, 1, 1]]⟩
    (by decide) (by decide) (by decide) (by decide)

/-- C2: no public operation ever hands back a structurally invalid matrix:
whenever `new`, `zeros`, `ones`, `add`, `sub`, `dot` or `transpose` return
a matrix, it satisfies the structural invariant, and `dot_scalar` of a
valid matrix is valid. -/
theorem C2_structural (n p : Nat) (l : List (List Int)) (A B : Matrix Int) (k : Int)
    (hA : A.valid) (hB : B.valid) :
    validE (Matrix.new l) ∧ validE (Matrix.zeros Int n p) ∧ validE (Matrix.ones Int n p) ∧
    validE (A.add B) ∧ validE (A.sub B) ∧ validE (A.dot B) ∧
    (A.dot_scalar k).valid ∧ validE A.transpose := by
  refine ⟨validE_new l, validE_new _, validE_new _, ?_, ?_, ?_,
    dot_scalar_valid A k hA, ?_⟩
  · unfold Matrix.add
    cases A.check_same_dims B with
    | error e => trivial
    | ok u => exact validE_new _
  · unfold Matrix.sub
    cases A.check_same_dims B with
    | error e => trivial
    | ok u => exact validE_new _
  · unfold Matrix.dot
    by_cases hk : (A.cols != B.rows) = true
    · rw [if_pos hk]; trivial
    · rw [if_neg hk]
      by_cases hm : 1 ≤ A.rows
      · rw [ones_eq Int A.rows B.cols hm]
        dsimp only
        obtain ⟨d2, hfill, hlen, hq, _⟩ := fillCells_ok A B hA hB
          (rowMajor A.rows B.cols) (List.replicate A.rows (List.replicate B.cols 1))
          (fun np hnp => by
            obtain ⟨i, j⟩ := np
            exact (mem_rowMajor A.rows B.cols i j).mp hnp)
          (List.length_replicate _ _)
          (fun r hr => by rw [List.eq_of_mem_replicate hr]; exact List.length_replicate _ _)
        rw [hfill]
        exact ⟨hlen, hq⟩
      · have h0 : A.rows = 0 := by omega
        rw [h0, ones_zero_rows]
        trivial
  · unfold Matrix.transpose
    cases A.check_valid_dims with
    | error e => trivial
    | ok u =>
      cases colsFrom A (List.range A.cols) with
      | error e => trivial
      | ok d => exact validE_new _

/-- C2 witness: the structural-validity theorem at concrete operands. -/
theorem C2_structural_witness :
    validE (Matrix.new ([[9, 9], [9, 9]] : List (List Int))) ∧
    validE (Matrix.zeros Int 2 3) ∧
    validE (Matrix.ones Int 2 3) ∧
    validE ((Matrix.mk 1 1 [[5]] : Matrix Int).add ⟨1, 1, [[6]]⟩) ∧
    validE ((Matrix.mk 1 1 [[5]] : Matrix Int).sub ⟨1, 1, [[6]]⟩) ∧
    validE ((Matrix.mk 1 1 [[5]] : Matrix Int).dot ⟨1, 1, [[6]]⟩) ∧
    ((Matrix.mk 1 1 [[5]] : Matrix Int).dot_scalar 7).valid ∧
    validE (Matrix.mk 1 1 [[5]] : Matrix Int).transpose :=
  C2_structural 2 3 ([[9, 9], [9, 9]] : List (List Int)) ⟨1, 1, [[5]]⟩ ⟨1, 1, [[6]]⟩ 7
    (by decide) (by decide)

/-- C3 (counterexample): `new` applied to an input with zero rows is not
accepted: the construction itself fails. -/
theorem C3_cex : (Matrix.new ([] : List (List Int))).isOk = false := rfl

/-- C3 (amended): `new` applied to an input with zero rows fails
immediately, because deriving `cols` reads the nonexistent first row; the
failure is the built-in index panic, not the `DimensionMismatch` raised
for ragged rows (the uniformity check passes vacuously). -/
theorem C3_zero_rows :
    Matrix.new ([] : List (List Int)) = .error .IndexPanic ∧
    Matrix.new ([] : List (List Int)) ≠ .error .DimensionMismatch :=
  ⟨rfl, by decide⟩

/-- C4 (counterexample): a pair of valid matrices with matching inner
dimensions on which `dot` nevertheless fails, because the receiver has
zero rows and the all-ones seeding panics. -/
theorem C4_cex :
    (Matrix.mk 0 1 [] : Matrix Int).valid ∧
    (Matrix.mk 1 1 [[5]] : Matrix Int).valid ∧
    (Matrix.mk 0 1 ([] : List (List Int))).cols =
      (Matrix.mk 1 1 ([[5]] : List (List Int)) : Matrix Int).rows ∧
    ((Matrix.mk 0 1 [] : Matrix Int).dot ⟨1, 1, [[5]]⟩).isOk = false := by decide

/-- C4 (amended): for valid matrices, `dot` fails with
`IncompatibleDimensions` exactly when the inner dimensions disagree; when
they agree it succeeds provided the receiver has at least one row, and
with a zero-row receiver it fails with an index panic instead. -/
theorem C4_dot_check (A B : Matrix Int) (hA : A.valid) (hB : B.valid) :
    (A.dot B = .error .IncompatibleDimensions ↔ A.cols ≠ B.rows) ∧
    (A.cols = B.rows → 1 ≤ A.rows → (A.dot B).isOk = true) ∧
    (A.cols = B.rows → A.rows = 0 → A.dot B = .error .IndexPanic) := by
  refine ⟨⟨?_, ?_⟩, ?_, ?_⟩
  · intro he
    by_contra hk
    by_cases hm : 1 ≤ A.rows
    · rw [dot_eq A B hA hB hk hm] at he
      exact absurd he (by simp)
    · rw [dot_zero_rows A B hk (by omega)] at he
      simp at he
  · intro hk
    unfold Matrix.dot
    rw [if_pos (by simpa using hk)]
  · intro hk hm
    rw [dot_eq A B hA hB hk hm]
    rfl
  · intro hk hm
    exact dot_zero_rows A B hk hm

/-- C4 witness: the dimension-check theorem at a concrete compatible
pair. -/
theorem C4_dot_check_witness :
    ((Matrix.mk 1 1 [[2]] : Matrix Int).dot ⟨1, 1, [[3]]⟩ =
        .error .IncompatibleDimensions ↔
      (Matrix.mk 1 1 ([[2]] : List (List Int))).cols ≠
        (Matrix.mk 1 1 ([[3]] : List (List Int)) : Matrix Int).rows) ∧
    ((Matrix.mk 1 1 ([[2]] : List (List Int))).cols =
        (Matrix.mk 1 1 ([[3]] : List (List Int)) : Matrix Int).rows →
      1 ≤ (Matrix.mk 1 1 ([[2]] : List (List Int))).rows →
      ((Matrix.mk 1 1 [[2]] : Matrix Int).dot ⟨1, 1, [[3]]⟩).isOk = true) ∧
    ((Matrix.mk 1 1 ([[2]] : List (List Int))).cols =
        (Matrix.mk 1 1 ([[3]] : List (List Int)) : Matrix Int).rows →
      (Matrix.mk 1 1 ([[2]] : List (List Int))).rows = 0 →
      (Matrix.mk 1 1 [[2]] : Matrix Int).dot ⟨1, 1, [[3]]⟩ = .error .IndexPanic) :=
  C4_dot_check ⟨1, 1, [[2]]⟩ ⟨1, 1, [[3]]⟩ (by decide) (by decide)

/-- C5 (counterexample): a valid matrix on which `transpose` fails: with
zero columns the loop collects no rows and hands an empty vector to `new`,
which panics reading its first row. -/
theorem C5_cex :
    (Matrix.mk 1 0 [[]] : Matrix Int).valid ∧
    ((Matrix.mk 1 0 [[]] : Matrix Int).transpose).isOk = false := by decide

/-- C5 (amended): for every valid matrix with at least one column,
`transpose` succeeds and returns the `cols` by `rows` matrix whose row `i`
is column `i` of the original; with zero columns it fails instead. -/
theorem C5_transpose (A : Matrix Int) (hA : A.valid) (hc : 1 ≤ A.cols) :
    A.transpose = .ok ⟨A.cols, A.rows,
      (List.range A.cols).map (fun i => A.data.map (fun r => r.getD i 0))⟩ :=
  transpose_eq A hA hc

/-- C5 witness: the transpose theorem at the 2 by 3 demonstration
matrix. -/
theorem C5_transpose_witness :
    (Matrix.mk 2 3 [[1, 2, 1], [4, 1, 3]] : Matrix Int).transpose =
      .ok ⟨3, 2, (List.range 3).map (fun i =>
        ([[1, 2, 1], [4, 1, 3]] : List (List Int)).map (fun r => r.getD i 0))⟩ :=
  C5_transpose ⟨2, 3, [[1, 2, 1], [4, 1, 3]]⟩ (by decide) (by decide)

/-- C6 (counterexample): `zeros` and `ones` with zero requested rows do
not succeed: they pass an empty vector to `new`, which panics. -/
theorem C6_cex :
    Matrix.zeros Int 0 0 = .error .IndexPanic ∧
    Matrix.ones Int 0 5 = .error .IndexPanic :=
  ⟨rfl, rfl⟩

/-- C6 (amended): for `n ≥ 1` and any `p`, `zeros n p` and `ones n p`
succeed and produce the `n` by `p` matrix each of whose elements is `0`
respectively `1`; for `n = 0` both fail. -/
theorem C6_factories (n p : Nat) (h : 1 ≤ n) :
    Matrix.zeros Int n p = .ok ⟨n, p, List.replicate n (List.replicate p 0)⟩ ∧
    Matrix.ones Int n p = .ok ⟨n, p, List.replicate n (List.replicate p 1)⟩ :=
  ⟨zeros_eq Int n p h, ones_eq Int n p h⟩

/-- C6 witness: the factory theorem at `n = 2`, `p = 3`. -/
theorem C6_factories_witness :
    Matrix.zeros Int 2 3 = .ok ⟨2, 3, List.replicate 2 (List.replicate 3 0)⟩ ∧
    Matrix.ones Int 2 3 = .ok ⟨2, 3, List.replicate 2 (List.replicate 3 1)⟩ :=
  C6_factories 2 3 (by decide)

/-- C7 (counterexample): two valid same-shape matrices for which
`(A + B) - B` does not evaluate to `A`: with zero rows the addition
already panics inside `new`. -/
theorem C7_cex :
    (Matrix.mk 0 0 [] : Matrix Int).valid ∧
    ((Matrix.mk 0 0 [] : Matrix Int).add ⟨0, 0, []⟩).bind
        (fun C => C.sub ⟨0, 0, ([] : List (List Int))⟩) = .error .IndexPanic := by
  decide

/-- C7 (amended): for valid same-shape matrices with at least one row,
`(A + B) - B` evaluates back to `A` elementwise; with zero rows the
addition itself fails. -/
theorem C7_add_sub (A B : Matrix Int) (hA : A.valid) (hB : B.valid)
    (hr : A.rows = B.rows) (hc : A.cols = B.cols) (hm : 1 ≤ A.rows) :
    (A.add B).bind (fun C => C.sub B) = .ok A := by
  rw [add_eq A B hA hB hr hc hm]
  dsimp only [Except.bind]
  have hCv : (Matrix.mk A.rows A.cols ((A.data.zip B.data).map
      (fun rr => (rr.1.zip rr.2).map (fun xy : Int × Int => xy.1 + xy.2)))).valid :=
    ⟨combData_length _ A B hA hB hr, combData_rows _ A B hA hB hc⟩
  rw [sub_eq _ B hCv hB hr hc hm]
  have hsub : ((((A.data.zip B.data).map
        (fun rr => (rr.1.zip rr.2).map (fun xy : Int × Int => xy.1 + xy.2))).zip B.data).map
      (fun rr => (rr.1.zip rr.2).map (fun xy : Int × Int => xy.1 - xy.2))) = A.data := by
    apply zipdata_add_sub
    rw [List.forall₂_iff_zip]
    refine ⟨by rw [hA.1, hB.1, hr], ?_⟩
    intro ra rb hab
    obtain ⟨h1, h2⟩ := List.of_mem_zip hab
    rw [hA.2 _ h1, hB.2 _ h2, hc]
  rw [hsub]

/-- C7 witness: the round-trip theorem at a concrete same-shape pair. -/
theorem C7_add_sub_witness :
    ((Matrix.mk 2 2 [[1, 2], [3, 4]] : Matrix Int).add ⟨2, 2, [[5, 6], [7, 8]]⟩).bind
      (fun C => C.sub ⟨2, 2, [[5, 6], [7, 8]]⟩) = .ok ⟨2, 2, [[1, 2], [3, 4]]⟩ :=
  C7_add_sub ⟨2, 2, [[1, 2], [3, 4]]⟩ ⟨2, 2, [[5, 6], [7, 8]]⟩
    (by decide) (by decide) (by decide) (by decide) (by decide)

/-- C8: addition and subtraction fail with `DimensionMismatch` whenever
the `check_same_dims` precondition fails, that is, whenever either operand
is individually malformed or the two shapes differ; consequently they can
succeed only on well-formed operands of identical shape. -/
theorem C8_same_dims (A B : Matrix Int)
    (h : ¬ (A.valid ∧ B.valid ∧ A.rows = B.rows ∧ A.cols = B.cols)) :
    A.add B = .error .DimensionMismatch ∧ A.sub B = .error .DimensionMismatch := by
  constructor
  · unfold Matrix.add
    rw [check_same_dims_err A B h]
  · unfold Matrix.sub
    rw [check_same_dims_err A B h]

/-- C8 witness: the failure theorem at a concrete shape-mismatched
pair. -/
theorem C8_same_dims_witness :
    (Matrix.mk 1 1 [[1]] : Matrix Int).add ⟨1, 2, [[1, 2]]⟩ =
      .error .DimensionMismatch ∧
    (Matrix.mk 1 1 [[1]] : Matrix Int).sub ⟨1, 2, [[1, 2]]⟩ =
      .error .DimensionMismatch :=
  C8_same_dims ⟨1, 1, [[1]]⟩ ⟨1, 2, [[1, 2]]⟩ (by decide)

/-- C9: on a valid matrix, `row i` fails with `IndexOutOfRange` exactly
when `i ≥ rows` and otherwise returns row `i`; `col j` fails with
`IndexOutOfRange` exactly when `j ≥ cols` and otherwise returns the
length-`rows` gather of element `j` of each row. -/
theorem C9_accessors (A : Matrix Int) (hA : A.valid) (i j : Nat) :
    (A.row i = .error .IndexOutOfRange ↔ A.rows ≤ i) ∧
    (i < A.rows → A.row i = .ok (A.data.getD i [])) ∧
    (A.col j = .error .IndexOutOfRange ↔ A.cols ≤ j) ∧
    (j < A.cols → A.col j = .ok (A.data.map (fun r => r.getD j 0)) ∧
      (A.data.map (fun r => r.getD j 0)).length = A.rows) :=
  ⟨row_err_iff A i hA, fun hi => row_ok A i hA hi, col_err_iff A j hA,
    fun hj => ⟨col_ok A j hA hj, by rw [List.length_map, hA.1]⟩⟩

/-- C9 witness: the accessor theorem at a concrete matrix and in-range
indices. -/
theorem C9_accessors_witness :
    ((Matrix.mk 2 2 [[1, 2], [3, 4]] : Matrix Int).row 1 = .error .IndexOutOfRange ↔
      (Matrix.mk 2 2 ([[1, 2], [3, 4]] : List (List Int))).rows ≤ 1) ∧
    (1 < (Matrix.mk 2 2 ([[1, 2], [3, 4]] : List (List Int))).rows →
      (Matrix.mk 2 2 [[1, 2], [3, 4]] : Matrix Int).row 1 =
        .ok (([[1, 2], [3, 4]] : List (List Int)).getD 1 [])) ∧
    ((Matrix.mk 2 2 [[1, 2], [3, 4]] : Matrix Int).col 0 = .error .IndexOutOfRange ↔
      (Matrix.mk 2 2 ([[1, 2], [3, 4]] : List (List Int))).cols ≤ 0) ∧
    (0 < (Matrix.mk 2 2 ([[1, 2], [3, 4]] : List (List Int))).cols →
      (Matrix.mk 2 2 [[1, 2], [3, 4]] : Matrix Int).col 0 =
        .ok (([[1, 2], [3, 4]] : List (List Int)).map (fun r => r.getD 0 0)) ∧
      (([[1, 2], [3, 4]] : List (List Int)).map (fun r => r.getD 0 0)).length =
        (Matrix.mk 2 2 ([[1, 2], [3, 4]] : List (List Int))).rows) :=
  C9_accessors ⟨2, 2, [[1, 2], [3, 4]]⟩ (by decide) 1 0

/-- C10: `dot_scalar` always succeeds, preserves the shape (and validity)
of a valid receiver, and every cell of the result is the scalar times the
corresponding cell of the receiver. -/
theorem C10_dot_scalar (A : Matrix Int) (k : Int) (hA : A.valid) :
    (A.dot_scalar k).rows = A.rows ∧ (A.dot_scalar k).cols = A.cols ∧
    (A.dot_scalar k).valid ∧
    ∀ i j, getCell (A.dot_scalar k).data i j = k * getCell A.data i j := by
  refine ⟨rfl, rfl, dot_scalar_valid A k hA, ?_⟩
  intro i j
  unfold getCell Matrix.dot_scalar
  dsimp only
  have hrowEq : (A.data.map (fun r => r.map (fun v => k * v))).getD i [] =
      (A.data.getD i []).map (fun v => k * v) := by
    rw [List.getD_eq_getElem?_getD, List.getElem?_map, List.getD_eq_getElem?_getD]
    cases A.data[i]? with
    | none => rfl
    | some r => rfl
  rw [hrowEq]
  generalize A.data.getD i [] = r
  rw [List.getD_eq_getElem?_getD, List.getElem?_map, List.getD_eq_getElem?_getD]
  cases hj : r[j]? with
  | none => simp
  | some v => rfl

/-- C10 witness: the scalar-multiplication theorem at a concrete matrix
and scalar. -/
theorem C10_dot_scalar_witness :
    ((Matrix.mk 2 2 [[1, 2], [3, 4]] : Matrix Int).dot_scalar 3).rows = 2 ∧
    ((Matrix.mk 2 2 [[1, 2], [3, 4]] : Matrix Int).dot_scalar 3).cols = 2 ∧
    ((Matrix.mk 2 2 [[1, 2], [3, 4]] : Matrix Int).dot_scalar 3).valid ∧
    ∀ i j, getCell ((Matrix.mk 2 2 [[1, 2], [3, 4]] : Matrix Int).dot_scalar 3).data i j =
      3 * getCell ([[1, 2], [3, 4]] : List (List Int)) i j :=
  C10_dot_scalar ⟨2, 2, [[1, 2], [3, 4]]⟩ 3 (by decide)

end RustLinalg
